import Mathlib

/-!
Shallow embedding of the truck B-rep kernel core:
* `truck-geotrait/src/algo/surface.rs` — presearch, Newton point inversion,
  Newton nearest-point search, adaptive parameter division;
* `truck-geometry/src/decorators/extruded_curve.rs` — extruded surface;
* `truck_topology/src/vertex.rs` — vertex identity and locking.

`f64` arithmetic is modelled by an exact linear ordered field (instantiated at
`ℚ` for everything executable; `ℝ` only where `normalize` needs a square root).
The one float-specific behaviour that decides a claim (`0.0 / 0.0 = NaN` in
`presearch` with `division = 0`) is modelled explicitly with `Option`, a `none`
standing for NaN.
-/

namespace Truck

/-- 3-dimensional vector (cgmath `Vector3<f64>`, coordinates in `α`). -/
structure Vec3 (α : Type) where
  x : α
  y : α
  z : α
deriving DecidableEq, Repr

/-- 3-dimensional point (cgmath `Point3<f64>`, coordinates in `α`). -/
structure Pt3 (α : Type) where
  x : α
  y : α
  z : α
deriving DecidableEq, Repr

variable {α : Type} [Field α]

/-- Vector addition. -/
def Vec3.add (a b : Vec3 α) : Vec3 α := ⟨a.x + b.x, a.y + b.y, a.z + b.z⟩

/-- Vector subtraction. -/
def Vec3.sub (a b : Vec3 α) : Vec3 α := ⟨a.x - b.x, a.y - b.y, a.z - b.z⟩

/-- Scalar multiple `t * v`. -/
def Vec3.smul (t : α) (v : Vec3 α) : Vec3 α := ⟨t * v.x, t * v.y, t * v.z⟩

/-- The zero vector (cgmath `Vector3::zero()`). -/
def Vec3.zero : Vec3 α := ⟨0, 0, 0⟩

/-- Dot product (cgmath `InnerSpace::dot`). -/
def Vec3.dot (a b : Vec3 α) : α := a.x * b.x + a.y * b.y + a.z * b.z

/-- Cross product (cgmath `Vector3::cross`). -/
def Vec3.cross (a b : Vec3 α) : Vec3 α :=
  ⟨a.y * b.z - a.z * b.y, a.z * b.x - a.x * b.z, a.x * b.y - a.y * b.x⟩

/-- Squared magnitude (cgmath `InnerSpace::magnitude2`). -/
def Vec3.mag2 (v : Vec3 α) : α := v.dot v

/-- `point + vector` (cgmath `Point3 + Vector3`). -/
def Pt3.addVec (p : Pt3 α) (v : Vec3 α) : Pt3 α := ⟨p.x + v.x, p.y + v.y, p.z + v.z⟩

/-- `point - point` yielding a vector (cgmath `EuclideanSpace` difference). -/
def Pt3.sub (p q : Pt3 α) : Vec3 α := ⟨p.x - q.x, p.y - q.y, p.z - q.z⟩

/-- `EuclideanSpace::to_vec`. -/
def Pt3.toVec (p : Pt3 α) : Vec3 α := ⟨p.x, p.y, p.z⟩

/-- `EuclideanSpace::from_vec`. -/
def Pt3.fromVec (v : Vec3 α) : Pt3 α := ⟨v.x, v.y, v.z⟩

/-- Squared distance between two points (cgmath `MetricSpace::distance2`). -/
def Pt3.dist2 (p q : Pt3 α) : α := (p.sub q).mag2

/-- 2-dimensional vector (cgmath `Vector2<f64>`) as a pair `(x, y)`. -/
def Vec2 (α : Type) : Type := α × α

/-- `Vector2` subtraction. -/
def Vec2.sub (a b : Vec2 α) : Vec2 α := (a.1 - b.1, a.2 - b.2)

/-- `Vector2` squared magnitude. -/
def Vec2.mag2 (v : Vec2 α) : α := v.1 * v.1 + v.2 * v.2

/-- cgmath `Matrix2<f64>`, stored as in `Matrix2::new(c0r0, c0r1, c1r0, c1r1)`
(column major: columns `(c0r0, c0r1)` and `(c1r0, c1r1)`). -/
structure Matrix2 (α : Type) where
  c0r0 : α
  c0r1 : α
  c1r0 : α
  c1r1 : α
deriving DecidableEq, Repr

/-- `Matrix2` determinant. -/
def Matrix2.det (m : Matrix2 α) : α := m.c0r0 * m.c1r1 - m.c1r0 * m.c0r1

/-- Matrix-vector product for `Matrix2`. -/
def Matrix2.mulVec (m : Matrix2 α) (v : Vec2 α) : Vec2 α :=
  (m.c0r0 * v.1 + m.c1r0 * v.2, m.c0r1 * v.1 + m.c1r1 * v.2)

/-- cgmath `SquareMatrix::invert` for `Matrix2`: `None` exactly when the
determinant vanishes, otherwise the adjugate divided by the determinant. -/
def Matrix2.invert [DecidableEq α] (m : Matrix2 α) : Option (Matrix2 α) :=
  if m.det = 0 then none
  else some ⟨m.c1r1 / m.det, -m.c0r1 / m.det, -m.c1r0 / m.det, m.c0r0 / m.det⟩

/-- cgmath `Matrix3<f64>` built by `Matrix3::from_cols`. -/
structure Matrix3 (α : Type) where
  c0 : Vec3 α
  c1 : Vec3 α
  c2 : Vec3 α
deriving DecidableEq, Repr

/-- `Matrix3` determinant (scalar triple product of the columns). -/
def Matrix3.det (m : Matrix3 α) : α := m.c0.dot (m.c1.cross m.c2)

/-- Matrix-vector product for `Matrix3` (columns weighted by coordinates). -/
def Matrix3.mulVec (m : Matrix3 α) (v : Vec3 α) : Vec3 α :=
  ((Vec3.smul v.x m.c0).add (Vec3.smul v.y m.c1)).add (Vec3.smul v.z m.c2)

/-- cgmath `SquareMatrix::invert` for `Matrix3`: `None` exactly when the
determinant vanishes, otherwise the adjugate divided by the determinant.
The inverse's rows are the cross products of pairs of columns over the
determinant, so its columns are assembled coordinate-wise. -/
def Matrix3.invert [DecidableEq α] (m : Matrix3 α) : Option (Matrix3 α) :=
  if m.det = 0 then none
  else
    let r0 := m.c1.cross m.c2
    let r1 := m.c2.cross m.c0
    let r2 := m.c0.cross m.c1
    some ⟨Vec3.smul (1 / m.det) ⟨r0.x, r1.x, r2.x⟩,
          Vec3.smul (1 / m.det) ⟨r0.y, r1.y, r2.y⟩,
          Vec3.smul (1 / m.det) ⟨r0.z, r1.z, r2.z⟩⟩

/-- Modelled from the spec: `truck_base::tolerance::TOLERANCE` (the crate is not
under `src/`), the system's minimum distinguishable distance, `1.0e-7`. -/
def TOLERANCE (α : Type) [Field α] : α := 1 / 10000000

/-- Modelled from the spec: `truck_base::tolerance::TOLERANCE2 = TOLERANCE²`. -/
def TOLERANCE2 (α : Type) [Field α] : α := TOLERANCE α * TOLERANCE α

/-- Modelled from the spec: `Tolerance::so_small` on an `f64` (truck_base, not
under `src/`) — the value is numerically degenerate, `|x| < TOLERANCE`. -/
def soSmall {α : Type} [LinearOrderedField α] (x : α) : Bool := |x| < TOLERANCE α

/-- A parametric surface, as the capability contract `ParametricSurface`:
position and the five partial-derivative operations, each a pure function of
the two parameters. -/
structure PSurf (α : Type) where
  subs : α → α → Pt3 α
  uder : α → α → Vec3 α
  vder : α → α → Vec3 α
  uuder : α → α → Vec3 α
  uvder : α → α → Vec3 α
  vvder : α → α → Vec3 α

section Algorithms

variable {α : Type} [LinearOrderedField α]

/-- Linear interpolation `a * (1 - p) + b * p`, the grid coordinate computed
inside `presearch`'s loop. -/
def gridCoord (a b p : α) : α := a * (1 - p) + b * p

/-- Modelled f64 division `(i as f64) / (division as f64)` from `presearch`:
`none` stands for the NaN produced when `division = 0` (inside the loop that
case is reached only with `i = 0`, and `0.0 / 0.0` is NaN); otherwise the
quotient. -/
def fDiv (i division : ℕ) : Option α :=
  if division = 0 then none else some ((i : α) / (division : α))

/-- One step of `presearch`'s double loop. State: the best parameter pair
`res` (initially `(0.0, 0.0)`) and the minimum distance so far (`none` is the
initial `f64::INFINITY`). A NaN grid coordinate (`fDiv = none`) taints the
evaluated distance, so the `dist < min` comparison is false and the state is
unchanged. -/
def presearchStep (S : PSurf α) (point : Pt3 α) (u0 u1 v0 v1 : α) (division : ℕ)
    (st : (α × α) × Option α) (ij : ℕ × ℕ) : (α × α) × Option α :=
  match fDiv (α := α) ij.1 division, fDiv (α := α) ij.2 division with
  | some p, some q =>
    let u := gridCoord u0 u1 p
    let v := gridCoord v0 v1 q
    let dist := (S.subs u v).dist2 point
    match st.2 with
    | none => ((u, v), some dist)
    | some m => if dist < m then ((u, v), some dist) else st
  | _, _ => st

/-- The `(division+1) × (division+1)` index grid in loop order (`i` outer,
`j` inner). -/
def gridIdx (division : ℕ) : List (ℕ × ℕ) :=
  (List.range (division + 1)).flatMap fun i =>
    (List.range (division + 1)).map fun j => (i, j)

/-- `presearch` (`algo/surface.rs`, lines 5–32): evaluate the surface on the
uniform grid over the region and keep the parameter pair of strictly smallest
squared distance to `point`. -/
def presearch (S : PSurf α) (point : Pt3 α) (r : (α × α) × (α × α))
    (division : ℕ) : α × α :=
  ((gridIdx division).foldl
    (presearchStep S point r.1.1 r.1.2 r.2.1 r.2.2 division) ((0, 0), none)).1

/-- The convergence-scale factor of `search_nearest_parameter`
(lines 61–62): `min(min(1.0, ‖∂u‖²), ‖∂v‖²)`. -/
def snpDermag2 (ud vd : Vec3 α) : α := min (min 1 ud.mag2) vd.mag2

/-- The gradient `f = (∂u · (S − p), ∂v · (S − p))` of `search_nearest_parameter`. -/
def snpF (S : PSurf α) (point : Pt3 α) (h : α × α) : Vec2 α :=
  let s := S.subs h.1 h.2
  (Vec3.dot (S.uder h.1 h.2) (s.sub point), Vec3.dot (S.vder h.1 h.2) (s.sub point))

/-- The Hessian-like matrix `Matrix2::new(a, c, c, b)` of
`search_nearest_parameter` (lines 57–60). -/
def snpFprime (S : PSurf α) (point : Pt3 α) (h : α × α) : Matrix2 α :=
  let s := S.subs h.1 h.2
  let ud := S.uder h.1 h.2
  let vd := S.vder h.1 h.2
  let a := Vec3.dot (S.uuder h.1 h.2) (s.sub point) + ud.dot ud
  let c := Vec3.dot (S.uvder h.1 h.2) (s.sub point) + ud.dot vd
  let b := Vec3.dot (S.vvder h.1 h.2) (s.sub point) + vd.dot vd
  ⟨a, c, c, b⟩

/-- The stopping condition of `search_nearest_parameter` (line 63): the
gradient is small relative to the scale factor, or the Hessian determinant is
numerically degenerate. -/
def snpDone (S : PSurf α) (point : Pt3 α) (h : α × α) : Bool :=
  decide (Vec2.mag2 (snpF S point h) <
    TOLERANCE2 α * snpDermag2 (S.uder h.1 h.2) (S.vder h.1 h.2)) ||
  soSmall (snpFprime S point h).det

/-- The Newton update of `search_nearest_parameter` (line 66): `none` when the
Hessian inversion fails. -/
def snpStep (S : PSurf α) (point : Pt3 α) (h : α × α) : Option (α × α) :=
  (Matrix2.invert (snpFprime S point h)).map fun m =>
    Vec2.sub h (m.mulVec (snpF S point h))

/-- The `for _ in 0..=trials` loop of `search_nearest_parameter`, with the
number of remaining loop-body executions explicit. -/
def snpLoop (S : PSurf α) (point : Pt3 α) : α × α → ℕ → Option (α × α)
  | _, 0 => none
  | h, n+1 =>
    if snpDone S point h then some h
    else
      match snpStep S point h with
      | none => none
      | some h2 => snpLoop S point h2 n

/-- `search_nearest_parameter` (lines 35–71): the loop body runs `trials + 1`
times; the diagnostic `NewtonLog` does not affect the result and is omitted. -/
def search_nearest_parameter (S : PSurf α) (point : Pt3 α) (hint : α × α)
    (trials : ℕ) : Option (α × α) :=
  snpLoop S point hint (trials + 1)

/-- Total version of the `search_nearest_parameter` update: keep the parameter
when the stopping condition holds, otherwise take the Newton step (falling back
to the parameter itself if the inversion were to fail — which cannot happen). -/
def snpTStep (S : PSurf α) (point : Pt3 α) (h : α × α) : α × α :=
  if snpDone S point h then h else (snpStep S point h).getD h

/-- The total iterate sequence of `search_nearest_parameter`. -/
def snpTIter (S : PSurf α) (point : Pt3 α) (hint : α × α) (k : ℕ) : α × α :=
  (snpTStep S point)^[k] hint

/-- `SspVector::from_param` for `Vector3` (line 96): embed `(u, v)` as
`(u, v, 0)`. -/
def sspFromParam (p : α × α) : Vec3 α := ⟨p.1, p.2, 0⟩

/-- `SspVector::into_param` for `Vector3` (line 95): `truncate` then `into`. -/
def sspIntoParam (w : Vec3 α) : α × α := (w.x, w.y)

/-- `SspVector::advance_newton` for `Vector3` (lines 92–94): solve the linear
system whose columns are `∂u`, `∂v`, `∂u × ∂v`; `none` when it is singular. -/
def advanceNewton (self diff uder vder : Vec3 α) : Option (Vec3 α) :=
  (Matrix3.invert ⟨uder, vder, uder.cross vder⟩).map fun m => self.sub (m.mulVec diff)

/-- The convergence-scale factor of `search_parameter` (lines 120–121):
`min(min(0.05, ‖∂u‖²), ‖∂v‖²)`. -/
def spDermag2 (uder vder : Vec3 α) : α := min (min (1/20 : α) uder.mag2) vder.mag2

/-- The stopping condition of `search_parameter` (line 122). -/
def spConv (S : PSurf α) (point : Pt3 α) (w : Vec3 α) : Bool :=
  decide ((S.subs (sspIntoParam w).1 (sspIntoParam w).2).dist2 point <
    TOLERANCE2 α * spDermag2 (S.uder (sspIntoParam w).1 (sspIntoParam w).2)
      (S.vder (sspIntoParam w).1 (sspIntoParam w).2))

/-- The Newton update of `search_parameter` (line 125). -/
def spStep (S : PSurf α) (point : Pt3 α) (w : Vec3 α) : Option (Vec3 α) :=
  advanceNewton w ((S.subs (sspIntoParam w).1 (sspIntoParam w).2).sub point)
    (S.uder (sspIntoParam w).1 (sspIntoParam w).2)
    (S.vder (sspIntoParam w).1 (sspIntoParam w).2)

/-- The `for _ in 0..=trials` loop of `search_parameter` (lines 114–126). -/
def spLoop (S : PSurf α) (point : Pt3 α) : Vec3 α → ℕ → Option (α × α)
  | _, 0 => none
  | w, n+1 =>
    if spConv S point w then some (sspIntoParam w)
    else
      match spStep S point w with
      | none => none
      | some w2 => spLoop S point w2 n

/-- `search_parameter` (lines 101–129) at the `Vector3` instance of
`SspVector`: the loop body runs `trials + 1` times. -/
def search_parameter (S : PSurf α) (point : Pt3 α) (hint : α × α)
    (trials : ℕ) : Option (α × α) :=
  spLoop S point (sspFromParam hint) (trials + 1)

/-- The bare Newton iterate sequence of `search_parameter`: `k` update steps
from `w`, `none` from the first singular linear system on. -/
def spIter (S : PSurf α) (point : Pt3 α) (w : Vec3 α) : ℕ → Option (Vec3 α)
  | 0 => some w
  | k+1 => (spIter S point w k).bind (spStep S point)

/-- The grid parameter `a * (1 - i/N) + b * (i/N)` sampled by `presearch`. -/
def gridParam (a b : α) (i N : ℕ) : α := gridCoord a b ((i : α) / (N : α))

/-- The grid sample parameter pair of `presearch` at index `(i, j)`. -/
def gridPt (u0 u1 v0 v1 : α) (N : ℕ) (ij : ℕ × ℕ) : α × α :=
  (gridParam u0 u1 ij.1 N, gridParam v0 v1 ij.2 N)

/-- The squared distance from the surface value at grid index `(i, j)` to the
target point. -/
def gridDist (S : PSurf α) (point : Pt3 α) (u0 u1 v0 v1 : α) (N : ℕ)
    (ij : ℕ × ℕ) : α :=
  (S.subs (gridPt u0 u1 v0 v1 N ij).1 (gridPt u0 u1 v0 v1 N ij).2).dist2 point

/-- The strict-argmin fold step, abstracted over the entry-to-parameter map
`f` and the entry-to-distance map `d`: exactly `presearchStep` once the
division count is nonzero (`presearchStep_total` below). -/
def argminStep {β : Type} (f : β → ℚ × ℚ) (d : β → ℚ)
    (st : (ℚ × ℚ) × Option ℚ) (e : β) : (ℚ × ℚ) × Option ℚ :=
  match st.2 with
  | none => (f e, some (d e))
  | some m => if d e < m then (f e, some (d e)) else st

end Algorithms

section Subdivision

/-- Modelled from the spec: `HashGen::hash1` (truck_base, not under `src/`) —
a deterministic pseudo-random value in `[0, 1)` keyed on the sampled point,
modelled as the fractional part of the point's x-coordinate. -/
def hash1 (p : Pt3 ℚ) : ℚ := Int.fract p.x

/-- The per-cell check of `sub_parameter_division` (lines 164–181): evaluate
the surface at the hash-perturbed midpoint of the cell and compare against the
bilinear interpolation of the four corner evaluations at the same perturbed
parameter; `true` means the cell needs refinement (`far`). -/
def cellFar (S : PSurf ℚ) (tol : ℚ) (u v : ℚ × ℚ) : Bool :=
  let u_gen := (u.1 + u.2) / 2
  let v_gen := (v.1 + v.2) / 2
  let gen := S.subs u_gen v_gen
  let p := 1/2 + (1/5 * hash1 gen - 1/10)
  let q := 1/2 + (1/5 * hash1 gen - 1/10)
  let u0 := u.1 * (1 - p) + u.2 * p
  let v0 := v.1 * (1 - q) + v.2 * q
  let p0 := S.subs u0 v0
  let pt00 := S.subs u.1 v.1
  let pt01 := S.subs u.1 v.2
  let pt10 := S.subs u.2 v.1
  let pt11 := S.subs u.2 v.2
  let pt := Pt3.fromVec
    ((((Vec3.smul ((1 - p) * (1 - q)) pt00.toVec).add
       (Vec3.smul ((1 - p) * q) pt01.toVec)).add
       (Vec3.smul (p * (1 - q)) pt10.toVec)).add
       (Vec3.smul (p * q) pt11.toVec))
  decide (p0.dist2 pt > tol * tol)

/-- A grid cell: its `u`-window paired with its `v`-window. -/
def Cell : Type := (ℚ × ℚ) × (ℚ × ℚ)

instance : DecidableEq Cell :=
  inferInstanceAs (DecidableEq ((ℚ × ℚ) × (ℚ × ℚ)))

/-- The consecutive-pairs windows of a breakpoint list (`windows(2)`). -/
def windows (l : List ℚ) : List (ℚ × ℚ) := l.zip l.tail

/-- The inner (`v`) loop of one refinement pass: threads the current
`u`-flag `ub` and the `v`-flag column `vbs`. A cell is skipped when both its
flags are already `true` (line 161); otherwise it is sampled (`cellFar`) and
the verdict is or-accumulated into both flags. Returns the final `u`-flag,
the updated `v`-flags, and the sampled cells in scan order. -/
def innerLoop (S : PSurf ℚ) (tol : ℚ) (u : ℚ × ℚ) :
    Bool → List (ℚ × ℚ) → List Bool → Bool × List Bool × List Cell
  | ub, [], _ => (ub, [], [])
  | ub, _ :: _, [] => (ub, [], [])
  | ub, v :: vs, vb :: vbs =>
    if ub && vb then
      let r := innerLoop S tol u ub vs vbs
      (r.1, vb :: r.2.1, r.2.2)
    else
      let far := cellFar S tol u v
      let r := innerLoop S tol u (ub || far) vs vbs
      (r.1, (vb || far) :: r.2.1, ((u, v) : Cell) :: r.2.2)

/-- The outer (`u`) loop of one refinement pass: each `u`-window starts with a
fresh `false` flag (`divide_flag0` is allocated all-`false` at line 156), the
`v`-flag column is threaded through all rows. -/
def outerLoop (S : PSurf ℚ) (tol : ℚ) (vs : List (ℚ × ℚ)) :
    List (ℚ × ℚ) → List Bool → List Bool × List Bool × List Cell
  | [], vbs => ([], vbs, [])
  | u :: us, vbs =>
    let r1 := innerLoop S tol u false vs vbs
    let r2 := outerLoop S tol vs us r1.2.1
    (r1.1 :: r2.1, r2.2.1, r1.2.2 ++ r2.2.2)

/-- Breakpoint bisection (lines 188–202): walk the windows with their flags,
inserting the arithmetic midpoint of every flagged window. `prev` is the left
end of the current window. -/
def newDivAux : ℚ → List ℚ → List Bool → List ℚ
  | _, [], _ => []
  | _, b :: bs, [] => b :: newDivAux b bs []
  | prev, b :: bs, f :: fs =>
    if f then (prev + b) / 2 :: b :: newDivAux b bs fs
    else b :: newDivAux b bs fs

/-- `new_udiv` / `new_vdiv`: the first breakpoint followed by the walk. -/
def newDiv (div : List ℚ) (flags : List Bool) : List ℚ :=
  match div with
  | [] => []
  | a :: rest => a :: newDivAux a rest flags

/-- One full refinement pass of `sub_parameter_division` (lines 156–202):
fresh all-`false` flags, the double scanning loop, then bisection of both
axes. Returns the new `u`-breakpoints, the new `v`-breakpoints, and the cells
sampled during the scan. -/
def pass (S : PSurf ℚ) (tol : ℚ) (udiv vdiv : List ℚ) :
    List ℚ × List ℚ × List Cell :=
  let r := outerLoop S tol (windows vdiv) (windows udiv)
    (List.replicate (windows vdiv).length false)
  (newDiv udiv r.1, newDiv vdiv r.2.1, r.2.2)

/-- The recursion of `sub_parameter_division` (lines 204–208), with explicit
fuel standing in for the source's unbounded recursion depth: recurse while a
breakpoint list changed length. -/
def sub_parameter_division (S : PSurf ℚ) (tol : ℚ) :
    ℕ → List ℚ → List ℚ → List ℚ × List ℚ
  | 0, udiv, vdiv => (udiv, vdiv)
  | fuel+1, udiv, vdiv =>
    let r := pass S tol udiv vdiv
    if r.1.length ≠ udiv.length ∨ r.2.1.length ≠ vdiv.length then
      sub_parameter_division S tol fuel r.1 r.2.1
    else (udiv, vdiv)

/-- `parameter_division` (lines 137–150). The `nonpositive_tolerance!` guard
is modelled from the spec (the macro lives in truck_base, not under `src/`):
it aborts exactly when the tolerance is at or below `TOLERANCE`; `none`
models the abort. Otherwise the recursive subdivision runs from the domain
corners. -/
def parameter_division (S : PSurf ℚ) (r : (ℚ × ℚ) × (ℚ × ℚ)) (tol : ℚ)
    (fuel : ℕ) : Option (List ℚ × List ℚ) :=
  if tol ≤ TOLERANCE ℚ then none
  else some (sub_parameter_division S tol fuel [r.1.1, r.1.2] [r.2.1, r.2.2])

/-- The per-pass sampling trace of the subdivision recursion: for each
executed pass, the list of cells it sampled. -/
def sampledTrace (S : PSurf ℚ) (tol : ℚ) : ℕ → List ℚ → List ℚ → List (List Cell)
  | 0, _, _ => []
  | fuel+1, udiv, vdiv =>
    let r := pass S tol udiv vdiv
    if r.1.length ≠ udiv.length ∨ r.2.1.length ≠ vdiv.length then
      r.2.2 :: sampledTrace S tol fuel r.1 r.2.1
    else [r.2.2]

end Subdivision

section Extrusion

variable {α : Type} [Field α]

/-- `std::ops::Bound<f64>` as used in `ParameterRange`. -/
inductive RBound (α : Type) where
  | included (a : α)
  | excluded (a : α)
  | unbounded
deriving DecidableEq, Repr

/-- A parameter range: a pair of bounds. -/
def PRange (α : Type) : Type := RBound α × RBound α

/-- The capability contract `ParametricCurve` (with the data used by
`ExtrudedCurve`): position, first and second derivatives, parameter range,
optional period. -/
structure PCurve (α : Type) where
  subs : α → Pt3 α
  der : α → Vec3 α
  der2 : α → Vec3 α
  parameter_range : PRange α
  period : Option α

/-- `ExtrudedCurve<C, V>`: a base curve swept along a constant vector. -/
structure ExtrudedCurve (α : Type) where
  curve : PCurve α
  vector : Vec3 α

/-- `ExtrudedCurve::by_extrusion`. -/
def ExtrudedCurve.by_extrusion (curve : PCurve α) (vector : Vec3 α) :
    ExtrudedCurve α := ⟨curve, vector⟩

/-- `ParametricSurface::subs` for `ExtrudedCurve` (line 29):
`curve.subs(u) + vector * v`. -/
def ExtrudedCurve.subs (e : ExtrudedCurve α) (u v : α) : Pt3 α :=
  (e.curve.subs u).addVec (Vec3.smul v e.vector)

/-- `ParametricSurface::uder` for `ExtrudedCurve` (line 31). -/
def ExtrudedCurve.uder (e : ExtrudedCurve α) (u _v : α) : Vec3 α := e.curve.der u

/-- `ParametricSurface::vder` for `ExtrudedCurve` (line 33). -/
def ExtrudedCurve.vder (e : ExtrudedCurve α) (_u _v : α) : Vec3 α := e.vector

/-- `ParametricSurface::uuder` for `ExtrudedCurve` (line 35). -/
def ExtrudedCurve.uuder (e : ExtrudedCurve α) (u _v : α) : Vec3 α := e.curve.der2 u

/-- `ParametricSurface::uvder` for `ExtrudedCurve` (line 37). -/
def ExtrudedCurve.uvder (_e : ExtrudedCurve α) (_u _v : α) : Vec3 α := Vec3.zero

/-- `ParametricSurface::vvder` for `ExtrudedCurve` (line 39). -/
def ExtrudedCurve.vvder (_e : ExtrudedCurve α) (_u _v : α) : Vec3 α := Vec3.zero

/-- `ParametricSurface::parameter_range` for `ExtrudedCurve` (lines 41–46):
the curve's range crossed with `[Included 0, Included 1]`. -/
def ExtrudedCurve.parameter_range (e : ExtrudedCurve α) : PRange α × PRange α :=
  (e.curve.parameter_range, (RBound.included 0, RBound.included 1))

/-- `ParametricSurface::u_period` for `ExtrudedCurve` (line 48). -/
def ExtrudedCurve.u_period (e : ExtrudedCurve α) : Option α := e.curve.period

/-- Modelled from the spec: `ParametricSurface::v_period`'s trait default (the
trait declaration is not under `src/`) — no periodicity in `v`. -/
def ExtrudedCurve.v_period (_e : ExtrudedCurve α) : Option α := none

/-- cgmath `InnerSpace::normalize`: `v * (1 / magnitude)`. -/
noncomputable def Vec3.normalize (v : Vec3 ℝ) : Vec3 ℝ :=
  Vec3.smul (1 / Real.sqrt v.mag2) v

/-- `ParametricSurface3D::normal` for `ExtrudedCurve` (lines 52–55):
`curve.der(u).cross(vector).normalize()`. -/
noncomputable def ExtrudedCurve.normal (e : ExtrudedCurve ℝ) (u _v : ℝ) : Vec3 ℝ :=
  ((e.curve.der u).cross e.vector).normalize

end Extrusion

section Topology

variable {P : Type}

/-- A vertex handle (`Vertex<P>` = `Arc<Mutex<P>>`): modelled by the identity
of the shared storage it references. -/
structure Vertex (P : Type) where
  id : ℕ
deriving DecidableEq, Repr

/-- The shared storage pool: the next fresh storage identity, each storage's
payload, and each storage's mutex state (`true` = exclusively held). -/
structure VStore (P : Type) where
  next : ℕ
  point : ℕ → P
  locked : ℕ → Bool

/-- `Vertex::new` (vertex.rs lines 14–17): allocate fresh storage holding
`p`, unlocked, and hand back a handle to it. -/
def VStore.new (σ : VStore P) (p : P) : Vertex P × VStore P :=
  (⟨σ.next⟩,
   ⟨σ.next + 1,
    fun i => if i = σ.next then p else σ.point i,
    fun i => if i = σ.next then false else σ.locked i⟩)

/-- `Clone for Vertex` (lines 60–65): a new handle sharing the same storage
(`Arc::clone` does not touch the payload). -/
def Vertex.clone (v : Vertex P) : Vertex P := ⟨v.id⟩

/-- `PartialEq for Vertex` (lines 67–72): `std::ptr::eq` on the storage
pointers — storage identity, the payload is never read. -/
def Vertex.beq (a b : Vertex P) : Bool := a.id == b.id

/-- `Hash for Vertex` (lines 76–81) feeds `std::ptr::hash` the storage
pointer: the datum hashed is the storage identity alone. -/
def Vertex.hashKey (v : Vertex P) : ℕ := v.id

/-- Reading the payload through a handle (dereferencing the lock guard). -/
def VStore.get (σ : VStore P) (v : Vertex P) : P := σ.point v.id

/-- Writing the payload through a handle (assignment through the lock guard). -/
def VStore.set (σ : VStore P) (v : Vertex P) (p : P) : VStore P :=
  ⟨σ.next, fun i => if i = v.id then p else σ.point i, σ.locked⟩

/-- `Vertex::try_lock_point` (line 56, `std::sync::Mutex::try_lock`
semantics): an error (`WouldBlock` contention) when the storage is already
exclusively held, otherwise acquisition of the exclusive lock. -/
def VStore.try_lock (σ : VStore P) (v : Vertex P) : Except Unit (VStore P) :=
  if σ.locked v.id then Except.error ()
  else Except.ok ⟨σ.next, σ.point, fun i => if i = v.id then true else σ.locked i⟩

/-- Dropping the `MutexGuard` at the end of its scope: the storage is
released, unconditionally. -/
def VStore.unlock (σ : VStore P) (v : Vertex P) : VStore P :=
  ⟨σ.next, σ.point, fun i => if i = v.id then false else σ.locked i⟩

end Topology

section ConcreteInstances

/-- The plane `(u, v) ↦ (u, v, 0)` with its exact derivatives: a concrete
conforming surface used to instantiate the universally quantified theorems. -/
def planeSurf : PSurf ℚ :=
  ⟨fun u v => ⟨u, v, 0⟩, fun _ _ => ⟨1, 0, 0⟩, fun _ _ => ⟨0, 1, 0⟩,
   fun _ _ => ⟨0, 0, 0⟩, fun _ _ => ⟨0, 0, 0⟩, fun _ _ => ⟨0, 0, 0⟩⟩

/-- A surface that is `0` except at the two parameter points `(2/5, 2/5)` and
`(1/5, 1/5)` — exactly the points sampled by the first two refinement passes
over `[0,1]²` — used to drive the subdivision recursion of claim C8. -/
def spikeSurf : PSurf ℚ :=
  ⟨fun u v =>
    ⟨if (u = 2/5 ∧ v = 2/5) ∨ (u = 1/5 ∧ v = 1/5) then 1 else 0, 0, 0⟩,
   fun _ _ => ⟨0, 0, 0⟩, fun _ _ => ⟨0, 0, 0⟩,
   fun _ _ => ⟨0, 0, 0⟩, fun _ _ => ⟨0, 0, 0⟩, fun _ _ => ⟨0, 0, 0⟩⟩

/-- A concrete storage pool with one allocated, unlocked vertex storage `0`. -/
def natStore : VStore ℕ := ⟨1, fun _ => 0, fun _ => false⟩

/-- `natStore` after vertex `0` acquires its exclusive lock. -/
def natStoreLocked : VStore ℕ := ⟨1, fun _ => 0, fun i => if i = 0 then true else false⟩

end ConcreteInstances

end Truck

namespace Truck

/-- Claim C1: a cloned handle equals the handle it was cloned from; two
independently constructed vertices are unequal even for equal payloads;
mutation through a handle is observable through every handle sharing its
storage (in particular every clone); and equality and the hashed datum are
functions of the storage identity alone, never of the payload. -/
theorem vertex_identity_law {P : Type} (σ : VStore P) (x y : P) (a b : Vertex P)
    (p : P) (hb : b.id = a.id) :
    (Vertex.beq a.clone a = true)
    ∧ (Vertex.beq ((σ.new x).2.new y).1 (σ.new x).1 = false)
    ∧ ((σ.set a p).get b = p ∧ (σ.set a p).get a.clone = p)
    ∧ (∀ c d : Vertex P, (Vertex.beq c d = true ↔ c.id = d.id) ∧ c.hashKey = c.id) := by
  refine ⟨?_, ?_, ⟨?_, ?_⟩, fun c d => ⟨?_, rfl⟩⟩
  · simp [Vertex.clone, Vertex.beq]
  · simp [VStore.new, Vertex.beq]
  · simp [VStore.set, VStore.get, hb]
  · simp [VStore.set, VStore.get, Vertex.clone]
  · simp [Vertex.beq]

/-- Witness for C1 at a concrete store, payloads, and handle pair. -/
theorem vertex_identity_law_witness :
    ((⟨0⟩ : Vertex ℕ).id = (⟨0⟩ : Vertex ℕ).id)
    ∧ (Vertex.beq (Vertex.clone (⟨0⟩ : Vertex ℕ)) ⟨0⟩ = true)
    ∧ (Vertex.beq ((natStore.new 5).2.new 5).1 (natStore.new 5).1 = false)
    ∧ ((natStore.set ⟨0⟩ 7).get ⟨0⟩ = 7 ∧ (natStore.set ⟨0⟩ 7).get (Vertex.clone ⟨0⟩) = 7)
    ∧ (∀ c d : Vertex ℕ, (Vertex.beq c d = true ↔ c.id = d.id) ∧ c.hashKey = c.id) := by
  have h := vertex_identity_law natStore 5 5 (⟨0⟩ : Vertex ℕ) ⟨0⟩ 7 rfl
  exact ⟨rfl, h.1, h.2.1, h.2.2.1, h.2.2.2⟩

/-- Claim C9: while one handle holds the exclusive lock on a vertex's storage,
a locking attempt through any handle sharing that storage reports contention;
releasing (the guard going out of scope) is unconditional and restores
availability, so a retry through the other handle then succeeds. -/
theorem vertex_lock_mutual_exclusion {P : Type} (σ σ1 : VStore P) (a b : Vertex P)
    (hshare : b.id = a.id) (hlock : σ.try_lock a = Except.ok σ1) :
    (σ1.try_lock b = Except.error ())
    ∧ ((σ1.unlock a).locked b.id = false)
    ∧ (∃ σ2, (σ1.unlock a).try_lock b = Except.ok σ2) := by
  have hσeq : σ1 = ⟨σ.next, σ.point, fun i => if i = a.id then true else σ.locked i⟩ := by
    unfold VStore.try_lock at hlock
    by_cases hσ : σ.locked a.id = true
    · rw [if_pos hσ] at hlock
      cases hlock
    · rw [if_neg hσ] at hlock
      exact (Except.ok.inj hlock).symm
  subst hσeq
  have hb : (⟨σ.next, σ.point, fun i => if i = a.id then true else σ.locked i⟩ :
      VStore P).locked b.id = true := by
    simp [hshare]
  have hun : ((⟨σ.next, σ.point, fun i => if i = a.id then true else σ.locked i⟩ :
      VStore P).unlock a).locked b.id = false := by
    simp [VStore.unlock, hshare]
  refine ⟨?_, hun, ?_⟩
  · unfold VStore.try_lock
    rw [hb]
    rfl
  · exact ⟨_, by unfold VStore.try_lock; rw [hun]; rfl⟩

/-- Witness for C9: a concrete store in which vertex `0` takes its lock. -/
theorem vertex_lock_mutual_exclusion_witness :
    (natStoreLocked.try_lock (⟨0⟩ : Vertex ℕ) = Except.error ())
    ∧ ((natStoreLocked.unlock (⟨0⟩ : Vertex ℕ)).locked 0 = false)
    ∧ (∃ σ2, (natStoreLocked.unlock (⟨0⟩ : Vertex ℕ)).try_lock (⟨0⟩ : Vertex ℕ) = Except.ok σ2) :=
  vertex_lock_mutual_exclusion natStore natStoreLocked ⟨0⟩ ⟨0⟩ rfl rfl

/-- Claim C2: the extruded surface delegates every operation to its base curve
and sweep vector: position is `curve(u) + v·vector` (coordinatewise), the
partial derivatives are the curve's derivative, the constant vector, the
curve's second derivative, and zero for both mixed and `vv` seconds; the 3D
normal is the normalized cross product of the curve derivative with the
vector; the parameter range is the curve's crossed with `[0, 1]` (both ends
included); the `u` period is the curve's and there is no `v` period. -/
theorem extruded_curve_delegation (c : PCurve ℝ) (w : Vec3 ℝ) (u v : ℝ) :
    ((ExtrudedCurve.by_extrusion c w).subs u v =
      ⟨(c.subs u).x + v * w.x, (c.subs u).y + v * w.y, (c.subs u).z + v * w.z⟩)
    ∧ ((ExtrudedCurve.by_extrusion c w).uder u v = c.der u)
    ∧ ((ExtrudedCurve.by_extrusion c w).vder u v = w)
    ∧ ((ExtrudedCurve.by_extrusion c w).uuder u v = c.der2 u)
    ∧ ((ExtrudedCurve.by_extrusion c w).uvder u v = Vec3.zero)
    ∧ ((ExtrudedCurve.by_extrusion c w).vvder u v = Vec3.zero)
    ∧ ((ExtrudedCurve.by_extrusion c w).normal u v = ((c.der u).cross w).normalize)
    ∧ ((ExtrudedCurve.by_extrusion c w).parameter_range =
        (c.parameter_range, (RBound.included 0, RBound.included 1)))
    ∧ ((ExtrudedCurve.by_extrusion c w).u_period = c.period)
    ∧ ((ExtrudedCurve.by_extrusion c w).v_period = none) :=
  ⟨rfl, rfl, rfl, rfl, rfl, rfl, rfl, rfl, rfl, rfl⟩

/-- Claim C5 counterexample: at first partials of squared magnitude `4`, the
nearest-point scale factor is `min(1, 4) = 1`, not the claimed
`min(0.05, 4) = 0.05`, and the point-inversion scale factor is
`min(0.05, 4) = 0.05`, not the claimed `min(1, 4) = 1` — the claim has the
two caps swapped. -/
theorem cap_asymmetry_counterexample :
    (snpDermag2 (⟨2, 0, 0⟩ : Vec3 ℚ) ⟨2, 0, 0⟩ ≠
      min (min (1/20) (Vec3.mag2 (⟨2, 0, 0⟩ : Vec3 ℚ))) (Vec3.mag2 (⟨2, 0, 0⟩ : Vec3 ℚ)))
    ∧ (spDermag2 (⟨2, 0, 0⟩ : Vec3 ℚ) ⟨2, 0, 0⟩ ≠
      min (min 1 (Vec3.mag2 (⟨2, 0, 0⟩ : Vec3 ℚ))) (Vec3.mag2 (⟨2, 0, 0⟩ : Vec3 ℚ))) := by
  constructor <;> with_unfolding_all decide

/-- Claim C5 as amended: the caps are the other way around — the nearest-point
variant (`search_nearest_parameter`) caps its convergence-scale factor at 1.0
and the point-inversion variant (`search_parameter`) caps it at 0.05. -/
theorem cap_asymmetry_amended (ud vd : Vec3 ℚ) :
    snpDermag2 ud vd = min 1 (min ud.mag2 vd.mag2)
    ∧ spDermag2 ud vd = min (1/20) (min ud.mag2 vd.mag2) := by
  constructor <;> simp [snpDermag2, spDermag2, min_assoc]

/-- Claim C6: evaluation of `presearch` at the failing input `division = 0`
with region `(1,2) × (3,4)` — the code divides `0.0/0.0` (NaN), every
`dist < min` comparison is false, and the untouched initial accumulator
`(0.0, 0.0)` is returned instead of the grid corner `(1, 3)` the claim
requires. -/
theorem presearch_division_zero_returns_origin :
    presearch planeSurf ⟨0, 0, 0⟩ ((1, 2), (3, 4)) 0 = ((0 : ℚ), (0 : ℚ))
    ∧ ((0 : ℚ), (0 : ℚ)) ≠ ((1 : ℚ), (3 : ℚ)) := by
  constructor <;> with_unfolding_all decide

/-- Claim C7: `parameter_division` aborts (before any output) exactly when the
tolerance is at or below the minimum distinguishable-distance threshold
`TOLERANCE`, and the tolerance check passes (producing a subdivision) whenever
the tolerance is strictly greater. -/
theorem parameter_division_tolerance_contract (S : PSurf ℚ)
    (r : (ℚ × ℚ) × (ℚ × ℚ)) (tol : ℚ) (fuel : ℕ) :
    (tol ≤ TOLERANCE ℚ → parameter_division S r tol fuel = none)
    ∧ (TOLERANCE ℚ < tol → ∃ out, parameter_division S r tol fuel = some out) := by
  constructor
  · intro h
    simp [parameter_division, h]
  · intro h
    refine ⟨sub_parameter_division S tol fuel [r.1.1, r.1.2] [r.2.1, r.2.2], ?_⟩
    simp [parameter_division, not_le.2 h]

/-- Witness for C7 at the threshold tolerance and at a valid tolerance. -/
theorem parameter_division_tolerance_contract_witness :
    (parameter_division planeSurf ((0, 1), (0, 1)) (TOLERANCE ℚ) 1 = none)
    ∧ (∃ out, parameter_division planeSurf ((0, 1), (0, 1)) 1 1 = some out) :=
  ⟨(parameter_division_tolerance_contract planeSurf ((0, 1), (0, 1)) (TOLERANCE ℚ) 1).1 (le_refl _),
   (parameter_division_tolerance_contract planeSurf ((0, 1), (0, 1)) 1 1).2
     (by with_unfolding_all decide)⟩

theorem presearchStep_total (S : PSurf ℚ) (point : Pt3 ℚ) (u0 u1 v0 v1 : ℚ)
    (N : ℕ) (hN : N ≠ 0) (st : (ℚ × ℚ) × Option ℚ) (ij : ℕ × ℕ) :
    presearchStep S point u0 u1 v0 v1 N st ij =
      argminStep (gridPt u0 u1 v0 v1 N) (gridDist S point u0 u1 v0 v1 N) st ij := by
  cases hst : st.2 with
  | none =>
    simp only [presearchStep, fDiv, if_neg hN, argminStep, hst, gridPt, gridDist, gridParam,
      gridCoord]
  | some m =>
    simp only [presearchStep, fDiv, if_neg hN, argminStep, hst, gridPt, gridDist, gridParam,
      gridCoord]

theorem mem_gridIdx (N : ℕ) (ij : ℕ × ℕ) :
    ij ∈ gridIdx N ↔ ij.1 ≤ N ∧ ij.2 ≤ N := by
  cases ij with
  | mk i j =>
    simp [gridIdx, List.mem_flatMap, List.mem_map, List.mem_range, Nat.lt_succ_iff]

theorem argmin_fold_spec {β : Type} (g : ℚ × ℚ → ℚ) (f : β → ℚ × ℚ) (d : β → ℚ)
    (hdg : ∀ e, d e = g (f e)) :
    ∀ (l : List β) (res : ℚ × ℚ) (m : Option ℚ),
      (∀ d0, m = some d0 → d0 = g res) →
      ((∀ d0, (List.foldl (argminStep f d) (res, m) l).2 = some d0 →
          d0 = g (List.foldl (argminStep f d) (res, m) l).1)
        ∧ ((List.foldl (argminStep f d) (res, m) l) = (res, m)
            ∨ ∃ e ∈ l, (List.foldl (argminStep f d) (res, m) l).1 = f e)
        ∧ (∀ e ∈ l, ∃ d0, (List.foldl (argminStep f d) (res, m) l).2 = some d0 ∧ d0 ≤ d e)
        ∧ (∀ m0, m = some m0 →
            ∃ d0, (List.foldl (argminStep f d) (res, m) l).2 = some d0 ∧ d0 ≤ m0)) := by
  intro l
  induction l with
  | nil =>
    intro res m hcons
    refine ⟨hcons, Or.inl rfl, ?_, ?_⟩
    · intro e he
      cases he
    · intro m0 hm
      exact ⟨m0, hm, le_refl m0⟩
  | cons e l IH =>
    intro res m
    cases m with
    | none =>
      intro _
      have hstep : argminStep f d (res, none) e = (f e, some (d e)) := rfl
      have hcons2 : ∀ d0, (some (d e) : Option ℚ) = some d0 → d0 = g (f e) := by
        intro d0 hd0
        rw [← Option.some.inj hd0, hdg]
      have ih := IH (f e) (some (d e)) hcons2
      rw [List.foldl_cons, hstep]
      refine ⟨ih.1, ?_, ?_, ?_⟩
      · rcases ih.2.1 with heq | ⟨e2, he2, hfe2⟩
        · exact Or.inr ⟨e, List.mem_cons_self e l, by rw [heq]⟩
        · exact Or.inr ⟨e2, List.mem_cons_of_mem e he2, hfe2⟩
      · intro e2 he2
        rcases List.mem_cons.1 he2 with rfl | he2
        · exact ih.2.2.2 (d e2) rfl
        · exact ih.2.2.1 e2 he2
      · intro m0 hm0
        cases hm0
    | some m0 =>
      intro hcons
      by_cases hlt : d e < m0
      · have hstep : argminStep f d (res, some m0) e = (f e, some (d e)) := by
          simp [argminStep, hlt]
        have hcons2 : ∀ d0, (some (d e) : Option ℚ) = some d0 → d0 = g (f e) := by
          intro d0 hd0
          rw [← Option.some.inj hd0, hdg]
        have ih := IH (f e) (some (d e)) hcons2
        rw [List.foldl_cons, hstep]
        refine ⟨ih.1, ?_, ?_, ?_⟩
        · rcases ih.2.1 with heq | ⟨e2, he2, hfe2⟩
          · exact Or.inr ⟨e, List.mem_cons_self e l, by rw [heq]⟩
          · exact Or.inr ⟨e2, List.mem_cons_of_mem e he2, hfe2⟩
        · intro e2 he2
          rcases List.mem_cons.1 he2 with rfl | he2
          · exact ih.2.2.2 (d e2) rfl
          · exact ih.2.2.1 e2 he2
        · intro m1 hm1
          obtain rfl : m0 = m1 := Option.some.inj hm1
          obtain ⟨d0, hd0, hd0le⟩ := ih.2.2.2 (d e) rfl
          exact ⟨d0, hd0, le_of_lt (lt_of_le_of_lt hd0le hlt)⟩
      · have hstep : argminStep f d (res, some m0) e = (res, some m0) := by
          simp [argminStep, hlt]
        have ih := IH res (some m0) hcons
        rw [List.foldl_cons, hstep]
        refine ⟨ih.1, ?_, ?_, ih.2.2.2⟩
        · rcases ih.2.1 with heq | ⟨e2, he2, hfe2⟩
          · exact Or.inl heq
          · exact Or.inr ⟨e2, List.mem_cons_of_mem e he2, hfe2⟩
        · intro e2 he2
          rcases List.mem_cons.1 he2 with rfl | he2
          · obtain ⟨d0, hd0, hd0le⟩ := ih.2.2.2 m0 rfl
            exact ⟨d0, hd0, le_trans hd0le (not_lt.1 hlt)⟩
          · exact ih.2.2.1 e2 he2

theorem presearch_eq_argmin (S : PSurf ℚ) (point : Pt3 ℚ) (u0 u1 v0 v1 : ℚ)
    (N : ℕ) (hN : N ≠ 0) :
    presearch S point ((u0, u1), (v0, v1)) N =
      (List.foldl (argminStep (gridPt u0 u1 v0 v1 N) (gridDist S point u0 u1 v0 v1 N))
        ((0, 0), none) (gridIdx N)).1 := by
  unfold presearch
  congr 1
  exact List.foldl_ext _ _ _ fun st ij _ => presearchStep_total S point u0 u1 v0 v1 N hN st ij

/-- Claim C3: for a division count `N ≥ 1`, `presearch` returns a parameter
pair lying on the `(N+1) × (N+1)` uniform grid over the region, and its
squared distance to the target point is at most the squared distance of every
grid sample point. -/
theorem presearch_optimal (S : PSurf ℚ) (point : Pt3 ℚ) (u0 u1 v0 v1 : ℚ)
    (N : ℕ) (hN : 1 ≤ N) :
    (∃ i ≤ N, ∃ j ≤ N,
        presearch S point ((u0, u1), (v0, v1)) N = (gridParam u0 u1 i N, gridParam v0 v1 j N))
    ∧ (∀ i ≤ N, ∀ j ≤ N,
        (S.subs (presearch S point ((u0, u1), (v0, v1)) N).1
            (presearch S point ((u0, u1), (v0, v1)) N).2).dist2 point
          ≤ (S.subs (gridParam u0 u1 i N) (gridParam v0 v1 j N)).dist2 point) := by
  have hne : N ≠ 0 := Nat.one_le_iff_ne_zero.1 hN
  have hdg : ∀ ij : ℕ × ℕ, gridDist S point u0 u1 v0 v1 N ij =
      (fun p : ℚ × ℚ => (S.subs p.1 p.2).dist2 point) (gridPt u0 u1 v0 v1 N ij) :=
    fun ij => rfl
  have spec := argmin_fold_spec (fun p : ℚ × ℚ => (S.subs p.1 p.2).dist2 point)
    (gridPt u0 u1 v0 v1 N) (gridDist S point u0 u1 v0 v1 N) hdg (gridIdx N)
    (0, 0) none (by intro d0 h; cases h)
  have h00 : ((0, 0) : ℕ × ℕ) ∈ gridIdx N :=
    (mem_gridIdx N (0, 0)).2 ⟨Nat.zero_le N, Nat.zero_le N⟩
  obtain ⟨dmin, hmin, _⟩ := spec.2.2.1 (0, 0) h00
  have hpre := presearch_eq_argmin S point u0 u1 v0 v1 N hne
  constructor
  · rcases spec.2.1 with heq | ⟨ij, hmem, hij⟩
    · rw [heq] at hmin
      cases hmin
    · obtain ⟨h1, h2⟩ := (mem_gridIdx N ij).1 hmem
      exact ⟨ij.1, h1, ij.2, h2, by rw [hpre, hij]; rfl⟩
  · intro i hi j hj
    have hmem : ((i, j) : ℕ × ℕ) ∈ gridIdx N := (mem_gridIdx N (i, j)).2 ⟨hi, hj⟩
    obtain ⟨d0, hd0, hd0le⟩ := spec.2.2.1 (i, j) hmem
    have := spec.1 d0 hd0
    rw [hpre]
    calc (S.subs (List.foldl (argminStep (gridPt u0 u1 v0 v1 N)
            (gridDist S point u0 u1 v0 v1 N)) ((0, 0), none) (gridIdx N)).1.1
          (List.foldl (argminStep (gridPt u0 u1 v0 v1 N)
            (gridDist S point u0 u1 v0 v1 N)) ((0, 0), none) (gridIdx N)).1.2).dist2 point
        = d0 := this.symm
      _ ≤ gridDist S point u0 u1 v0 v1 N (i, j) := hd0le
      _ = (S.subs (gridParam u0 u1 i N) (gridParam v0 v1 j N)).dist2 point := rfl

/-- Witness for C3 on the plane at division count 1. -/
theorem presearch_optimal_witness :
    (1 ≤ 1)
    ∧ ((∃ i ≤ 1, ∃ j ≤ 1,
          presearch planeSurf ⟨1, 1, 0⟩ ((0, 1), (0, 1)) 1 = (gridParam 0 1 i 1, gridParam 0 1 j 1))
        ∧ (∀ i ≤ 1, ∀ j ≤ 1,
            (planeSurf.subs (presearch planeSurf ⟨1, 1, 0⟩ ((0, 1), (0, 1)) 1).1
                (presearch planeSurf ⟨1, 1, 0⟩ ((0, 1), (0, 1)) 1).2).dist2 ⟨1, 1, 0⟩
              ≤ (planeSurf.subs (gridParam 0 1 i 1) (gridParam 0 1 j 1)).dist2 ⟨1, 1, 0⟩)) :=
  ⟨le_refl 1, presearch_optimal planeSurf ⟨1, 1, 0⟩ 0 1 0 1 1 (le_refl 1)⟩

theorem tolerance_pos : (0 : ℚ) < TOLERANCE ℚ := by
  with_unfolding_all decide

theorem snpStep_some_of_not_done (S : PSurf ℚ) (point : Pt3 ℚ) (h : ℚ × ℚ)
    (hd : snpDone S point h = false) : ∃ h2, snpStep S point h = some h2 := by
  have hso : soSmall (snpFprime S point h).det = false := by
    unfold snpDone at hd
    exact (Bool.or_eq_false_iff.1 hd).2
  have hne : (snpFprime S point h).det ≠ 0 := by
    intro h0
    unfold soSmall at hso
    rw [h0] at hso
    simp at hso
    exact absurd tolerance_pos (by simpa using hso)
  unfold snpStep Matrix2.invert
  rw [if_neg hne]
  exact ⟨_, rfl⟩

theorem snpTStep_eq_of_not_done (S : PSurf ℚ) (point : Pt3 ℚ) (h h2 : ℚ × ℚ)
    (hd : snpDone S point h = false) (hs : snpStep S point h = some h2) :
    snpTStep S point h = h2 := by
  unfold snpTStep
  rw [hd, hs]
  rfl

theorem snpLoop_none_iff (S : PSurf ℚ) (point : Pt3 ℚ) :
    ∀ (n : ℕ) (h : ℚ × ℚ),
      snpLoop S point h n = none ↔
        ∀ k < n, snpDone S point ((snpTStep S point)^[k] h) = false := by
  intro n
  induction n with
  | zero =>
    intro h
    simp [snpLoop]
  | succ n IH =>
    intro h
    cases hd : snpDone S point h with
    | true =>
      have hl : snpLoop S point h (n+1) = some h := by
        simp [snpLoop, hd]
      rw [hl]
      constructor
      · intro hc
        cases hc
      · intro hall
        have h0 := hall 0 (Nat.succ_pos n)
        rw [Function.iterate_zero_apply] at h0
        rw [hd] at h0
        cases h0
    | false =>
      obtain ⟨h2, hs⟩ := snpStep_some_of_not_done S point h hd
      have ht : snpTStep S point h = h2 := snpTStep_eq_of_not_done S point h h2 hd hs
      have hl : snpLoop S point h (n+1) = snpLoop S point h2 n := by
        simp [snpLoop, hd, hs]
      rw [hl, IH h2]
      constructor
      · intro hall k hk
        cases k with
        | zero =>
          rw [Function.iterate_zero_apply]
          exact hd
        | succ k =>
          rw [Function.iterate_succ_apply, ht]
          exact hall k (Nat.lt_of_succ_lt_succ hk)
      · intro hall k hk
        have := hall (k+1) (Nat.succ_lt_succ hk)
        rw [Function.iterate_succ_apply, ht] at this
        exact this

/-- Claim C10: `search_nearest_parameter` can return `None` only by exhausting
its trial budget — whenever the stopping condition fails, the degenerate-
determinant test has already ruled out a singular Hessian, so the inversion in
the update step always succeeds; consequently the function returns `None` iff
every (total) iterate within the budget fails the stopping condition. -/
theorem snp_failure_only_budget (S : PSurf ℚ) (point : Pt3 ℚ) :
    (∀ h, snpDone S point h = false → Matrix2.invert (snpFprime S point h) ≠ none)
    ∧ (∀ hint trials, search_nearest_parameter S point hint trials = none ↔
        ∀ k ≤ trials, snpDone S point (snpTIter S point hint k) = false) := by
  constructor
  · intro h hd hnone
    obtain ⟨h2, hs⟩ := snpStep_some_of_not_done S point h hd
    unfold snpStep at hs
    rw [hnone] at hs
    cases hs
  · intro hint trials
    unfold search_nearest_parameter snpTIter
    rw [snpLoop_none_iff S point (trials + 1) hint]
    constructor
    · intro hall k hk
      exact hall k (Nat.lt_succ_of_le hk)
    · intro hall k hk
      exact hall k (Nat.lt_succ_iff.1 hk)

/-- Witness for C10: on the plane with a far-away target and a zero budget,
the search fails by exhaustion; the Hessian at the hint is invertible and the
iterate is not converged. -/
theorem snp_failure_only_budget_witness :
    (Matrix2.invert (snpFprime planeSurf ⟨3, 3, 3⟩ (0, 0)) ≠ none)
    ∧ (search_nearest_parameter planeSurf ⟨3, 3, 3⟩ (0, 0) 0 = none)
    ∧ (snpDone planeSurf ⟨3, 3, 3⟩ (snpTIter planeSurf ⟨3, 3, 3⟩ (0, 0) 0) = false) :=
  ⟨(snp_failure_only_budget planeSurf ⟨3, 3, 3⟩).1 (0, 0) (by with_unfolding_all decide),
   by with_unfolding_all decide,
   ((snp_failure_only_budget planeSurf ⟨3, 3, 3⟩).2 (0, 0) 0).mp
     (by with_unfolding_all decide) 0 (le_refl 0)⟩

theorem spIter_succ_some (S : PSurf ℚ) (point : Pt3 ℚ) (w w2 : Vec3 ℚ)
    (hs : spStep S point w = some w2) :
    ∀ k, spIter S point w (k+1) = spIter S point w2 k := by
  intro k
  induction k with
  | zero =>
    simp [spIter, hs]
  | succ k IH =>
    show (spIter S point w (k+1)).bind (spStep S point) = _
    rw [IH]
    rfl

theorem spIter_succ_none (S : PSurf ℚ) (point : Pt3 ℚ) (w : Vec3 ℚ)
    (hs : spStep S point w = none) :
    ∀ k, spIter S point w (k+1) = none := by
  intro k
  induction k with
  | zero =>
    simp [spIter, hs]
  | succ k IH =>
    show (spIter S point w (k+1)).bind (spStep S point) = none
    rw [IH]
    rfl

theorem spIter_none_mono (S : PSurf ℚ) (point : Pt3 ℚ) (w : Vec3 ℚ) :
    ∀ k k', k ≤ k' → spIter S point w k = none → spIter S point w k' = none := by
  intro k k' hle hnone
  induction hle with
  | refl => exact hnone
  | step _ IH =>
    show (spIter S point w _).bind (spStep S point) = none
    rw [IH]
    rfl

theorem spLoop_some_iff (S : PSurf ℚ) (point : Pt3 ℚ) :
    ∀ (n : ℕ) (w : Vec3 ℚ) (p : ℚ × ℚ),
      spLoop S point w n = some p ↔
        ∃ k < n, (∀ j < k, ∃ w2, spIter S point w j = some w2 ∧ spConv S point w2 = false)
          ∧ ∃ wk, spIter S point w k = some wk ∧ spConv S point wk = true
              ∧ p = sspIntoParam wk := by
  intro n
  induction n with
  | zero =>
    intro w p
    simp [spLoop]
  | succ n IH =>
    intro w p
    cases hc : spConv S point w with
    | true =>
      have hl : spLoop S point w (n+1) = some (sspIntoParam w) := by
        simp [spLoop, hc]
      rw [hl]
      constructor
      · intro hp
        exact ⟨0, Nat.succ_pos n, fun j hj => absurd hj (Nat.not_lt_zero j),
          w, rfl, hc, (Option.some.inj hp).symm⟩
      · rintro ⟨k, hk, hpre, wk, hiter, hcv, hp⟩
        cases k with
        | zero =>
          have hw : some w = some wk := by simpa [spIter] using hiter
          obtain rfl := Option.some.inj hw
          rw [hp]
        | succ k =>
          obtain ⟨w2, hw2, hcv2⟩ := hpre 0 (Nat.succ_pos k)
          have hww : some w = some w2 := by simpa [spIter] using hw2
          obtain rfl := Option.some.inj hww
          rw [hc] at hcv2
          cases hcv2
    | false =>
      cases hs : spStep S point w with
      | none =>
        have hl : spLoop S point w (n+1) = none := by
          simp [spLoop, hc, hs]
        rw [hl]
        constructor
        · intro hp
          cases hp
        · rintro ⟨k, hk, hpre, wk, hiter, hcv, hp⟩
          cases k with
          | zero =>
            have hw : some w = some wk := by simpa [spIter] using hiter
            obtain rfl := Option.some.inj hw
            rw [hc] at hcv
            cases hcv
          | succ k =>
            rw [spIter_succ_none S point w hs k] at hiter
            cases hiter
      | some w2 =>
        have hl : spLoop S point w (n+1) = spLoop S point w2 n := by
          simp [spLoop, hc, hs]
        rw [hl, IH w2 p]
        constructor
        · rintro ⟨k, hk, hpre, wk, hiter, hcv, hp⟩
          refine ⟨k+1, Nat.succ_lt_succ hk, ?_, wk, ?_, hcv, hp⟩
          · intro j hj
            cases j with
            | zero => exact ⟨w, rfl, hc⟩
            | succ j =>
              rw [spIter_succ_some S point w w2 hs j]
              exact hpre j (Nat.lt_of_succ_lt_succ hj)
          · rw [spIter_succ_some S point w w2 hs k]
            exact hiter
        · rintro ⟨k, hk, hpre, wk, hiter, hcv, hp⟩
          cases k with
          | zero =>
            have hw : some w = some wk := by simpa [spIter] using hiter
            obtain rfl := Option.some.inj hw
            rw [hc] at hcv
            cases hcv
          | succ k =>
            refine ⟨k, Nat.lt_of_succ_lt_succ hk, ?_, wk, ?_, hcv, hp⟩
            · intro j hj
              have hj2 := hpre (j+1) (Nat.succ_lt_succ hj)
              rw [spIter_succ_some S point w w2 hs j] at hj2
              exact hj2
            · rw [spIter_succ_some S point w w2 hs k] at hiter
              exact hiter

theorem newton_none_classification (B : ℕ) (it : ℕ → Option (Vec3 ℚ))
    (cv : Vec3 ℚ → Bool)
    (hmono : ∀ k k', k ≤ k' → it k = none → it k' = none) :
    (¬ ∃ k ≤ B, (∀ j < k, ∃ w, it j = some w ∧ cv w = false)
        ∧ ∃ w, it k = some w ∧ cv w = true) ↔
      ((∃ k ≤ B, (∀ j < k, ∃ w, it j = some w ∧ cv w = false) ∧ it k = none)
        ∨ (∀ k ≤ B, ∃ w, it k = some w ∧ cv w = false)) := by
  classical
  constructor
  · intro hn
    have key : ∀ k, k ≤ B → ∀ w, it k = some w → cv w = false := by
      intro k
      induction k using Nat.strong_induction_on with
      | _ k IH =>
        intro hk w hw
        cases hcvw : cv w with
        | false => rfl
        | true =>
          refine absurd ⟨k, hk, ?_, w, hw, hcvw⟩ hn
          intro j hj
          cases hji : it j with
          | none =>
            rw [hmono j k (le_of_lt hj) hji] at hw
            cases hw
          | some wj =>
            exact ⟨wj, rfl, IH j hj (le_trans (le_of_lt hj) hk) wj hji⟩
    by_cases hex : ∃ k, k ≤ B ∧ it k = none
    · left
      obtain ⟨k1, hk1, hk1none⟩ := hex
      have hexist : ∃ k, it k = none := ⟨k1, hk1none⟩
      have hk0none : it (Nat.find hexist) = none := Nat.find_spec hexist
      have hk0le : Nat.find hexist ≤ B := le_trans (Nat.find_min' hexist hk1none) hk1
      refine ⟨Nat.find hexist, hk0le, ?_, hk0none⟩
      intro j hj
      have hjne : ¬ it j = none := Nat.find_min hexist hj
      cases hji : it j with
      | none => exact absurd hji hjne
      | some wj => exact ⟨wj, rfl, key j (le_trans (le_of_lt hj) hk0le) wj hji⟩
    · right
      intro k hk
      have hne : ¬ it k = none := fun hnone => hex ⟨k, hk, hnone⟩
      cases hki : it k with
      | none => exact absurd hki hne
      | some w => exact ⟨w, rfl, key k hk w hki⟩
  · intro hd
    rcases hd with ⟨k, hk, hpre, hnone⟩ | hall
    · rintro ⟨k2, hk2, hpre2, w, hw, hcv⟩
      by_cases hkk : k ≤ k2
      · rw [hmono k k2 hkk hnone] at hw
        cases hw
      · obtain ⟨w2, hw2, hcv2⟩ := hpre k2 (not_le.1 hkk)
        rw [hw2] at hw
        obtain rfl := Option.some.inj hw
        rw [hcv] at hcv2
        cases hcv2
    · rintro ⟨k2, hk2, _, w, hw, hcv⟩
      obtain ⟨w2, hw2, hcv2⟩ := hall k2 hk2
      rw [hw2] at hw
      obtain rfl := Option.some.inj hw
      rw [hcv] at hcv2
      cases hcv2

/-- Claim C4: `search_parameter` returns `Some (u, v)` iff, within its budget
of `trials` update steps, the (not-yet-failed) Newton iterate sequence first
reaches a point whose squared distance to the target is below `TOLERANCE²`
scaled by the smaller of the two first partials' squared magnitudes capped at
0.05; it returns `None` iff a linear system is singular at some iteration
before convergence or the budget is exhausted with no iterate converged. -/
theorem search_parameter_characterization (S : PSurf ℚ) (point : Pt3 ℚ)
    (hint : ℚ × ℚ) (trials : ℕ) :
    (∀ p, search_parameter S point hint trials = some p ↔
        ∃ k ≤ trials,
          (∀ j < k, ∃ w, spIter S point (sspFromParam hint) j = some w
              ∧ spConv S point w = false)
          ∧ ∃ w, spIter S point (sspFromParam hint) k = some w
              ∧ spConv S point w = true ∧ p = sspIntoParam w)
    ∧ (search_parameter S point hint trials = none ↔
        ((∃ k ≤ trials,
            (∀ j < k, ∃ w, spIter S point (sspFromParam hint) j = some w
                ∧ spConv S point w = false)
            ∧ spIter S point (sspFromParam hint) k = none)
          ∨ (∀ k ≤ trials, ∃ w, spIter S point (sspFromParam hint) k = some w
              ∧ spConv S point w = false))) := by
  have hsome : ∀ p, search_parameter S point hint trials = some p ↔
      ∃ k ≤ trials,
        (∀ j < k, ∃ w, spIter S point (sspFromParam hint) j = some w
            ∧ spConv S point w = false)
        ∧ ∃ w, spIter S point (sspFromParam hint) k = some w
            ∧ spConv S point w = true ∧ p = sspIntoParam w := by
    intro p
    unfold search_parameter
    rw [spLoop_some_iff S point (trials + 1) (sspFromParam hint) p]
    constructor
    · rintro ⟨k, hk, hrest⟩
      exact ⟨k, Nat.lt_succ_iff.1 hk, hrest⟩
    · rintro ⟨k, hk, hrest⟩
      exact ⟨k, Nat.lt_succ_of_le hk, hrest⟩
  refine ⟨hsome, ?_⟩
  have h1 : search_parameter S point hint trials = none ↔
      ¬ ∃ p, search_parameter S point hint trials = some p := by
    cases hx : search_parameter S point hint trials <;> simp
  have h2 : (∃ p, search_parameter S point hint trials = some p) ↔
      ∃ k ≤ trials,
        (∀ j < k, ∃ w, spIter S point (sspFromParam hint) j = some w
            ∧ spConv S point w = false)
        ∧ ∃ w, spIter S point (sspFromParam hint) k = some w
            ∧ spConv S point w = true := by
    constructor
    · rintro ⟨p, hp⟩
      obtain ⟨k, hk, hpre, w, hw, hcv, _⟩ := (hsome p).1 hp
      exact ⟨k, hk, hpre, w, hw, hcv⟩
    · rintro ⟨k, hk, hpre, w, hw, hcv⟩
      exact ⟨sspIntoParam w, (hsome (sspIntoParam w)).2 ⟨k, hk, hpre, w, hw, hcv, rfl⟩⟩
  rw [h1, h2]
  exact newton_none_classification trials (spIter S point (sspFromParam hint))
    (spConv S point) (spIter_none_mono S point (sspFromParam hint))

/-- Witness for C4: on the plane with the target on the surface and the exact
hint, the search converges immediately and the characterization produces the
convergent iterate. -/
theorem search_parameter_characterization_witness :
    (search_parameter planeSurf ⟨0, 0, 0⟩ (0, 0) 1 = some (0, 0))
    ∧ (∃ k ≤ 1,
        (∀ j < k, ∃ w, spIter planeSurf ⟨0, 0, 0⟩ (sspFromParam (0, 0)) j = some w
            ∧ spConv planeSurf ⟨0, 0, 0⟩ w = false)
        ∧ ∃ w, spIter planeSurf ⟨0, 0, 0⟩ (sspFromParam (0, 0)) k = some w
            ∧ spConv planeSurf ⟨0, 0, 0⟩ w = true
            ∧ ((0 : ℚ), (0 : ℚ)) = sspIntoParam w) := by
  have hs : search_parameter planeSurf ⟨0, 0, 0⟩ (0, 0) 1 = some (0, 0) := by
    with_unfolding_all decide
  exact ⟨hs, ((search_parameter_characterization planeSurf ⟨0, 0, 0⟩ (0, 0) 1).1
    ((0 : ℚ), (0 : ℚ))).1 hs⟩

/-- Claim C8 counterexample: with `spikeSurf` and tolerance `1/2`, the
subdivision recursion started on `[0,1] × [0,1]` runs three passes; the cell
`([1/2,1], [1/2,1])` is sampled by the second pass and found within tolerance
(`cellFar = false`), yet the third pass samples that very cell again — a cell
found fine is re-sampled by the following pass, and `parameter_division`
performs exactly this run. -/
theorem subdivision_resampling_counterexample :
    (sampledTrace spikeSurf (1/2) 10 [0, 1] [0, 1]).length = 3
    ∧ ((((1 : ℚ)/2, (1 : ℚ)), ((1 : ℚ)/2, (1 : ℚ))) : Cell) ∈
        (sampledTrace spikeSurf (1/2) 10 [0, 1] [0, 1]).getD 1 []
    ∧ cellFar spikeSurf (1/2) ((1 : ℚ)/2, 1) ((1 : ℚ)/2, 1) = false
    ∧ ((((1 : ℚ)/2, (1 : ℚ)), ((1 : ℚ)/2, (1 : ℚ))) : Cell) ∈
        (sampledTrace spikeSurf (1/2) 10 [0, 1] [0, 1]).getD 2 []
    ∧ parameter_division spikeSurf ((0, 1), (0, 1)) (1/2) 10
        = some ([0, 1/4, 1/2, 1], [0, 1/4, 1/2, 1]) := by
  refine ⟨?_, ?_, ?_, ?_, ?_⟩ <;> with_unfolding_all decide

theorem innerLoop_all_fine (S : PSurf ℚ) (tol : ℚ) (u : ℚ × ℚ) :
    ∀ (vs : List (ℚ × ℚ)) (vbs : List Bool), vbs = List.replicate vs.length false →
      (∀ v ∈ vs, cellFar S tol u v = false) →
      innerLoop S tol u false vs vbs = (false, vbs, vs.map fun v => ((u, v) : Cell)) := by
  intro vs
  induction vs with
  | nil =>
    intro vbs hvbs _
    subst hvbs
    rfl
  | cons v vs IH =>
    intro vbs hvbs hfine
    subst hvbs
    have hrep : List.replicate (v :: vs).length false
        = false :: List.replicate vs.length false := by
      simp [List.replicate_succ]
    rw [hrep]
    have hfar : cellFar S tol u v = false := hfine v (List.mem_cons_self v vs)
    have hih := IH (List.replicate vs.length false) rfl
      (fun v2 hv2 => hfine v2 (List.mem_cons_of_mem v hv2))
    simp [innerLoop, hfar, hih]

theorem outerLoop_all_fine (S : PSurf ℚ) (tol : ℚ) (vs : List (ℚ × ℚ)) :
    ∀ (us : List (ℚ × ℚ)) (vbs : List Bool), vbs = List.replicate vs.length false →
      (∀ u ∈ us, ∀ v ∈ vs, cellFar S tol u v = false) →
      outerLoop S tol vs us vbs =
        (List.replicate us.length false, vbs,
          us.flatMap fun u => vs.map fun v => ((u, v) : Cell)) := by
  intro us
  induction us with
  | nil =>
    intro vbs hvbs _
    subst hvbs
    rfl
  | cons u us IH =>
    intro vbs hvbs hfine
    subst hvbs
    have h1 := innerLoop_all_fine S tol u vs (List.replicate vs.length false) rfl
      (fun v hv => hfine u (List.mem_cons_self u us) v hv)
    have h2 := IH (List.replicate vs.length false) rfl
      (fun u2 hu2 v hv => hfine u2 (List.mem_cons_of_mem u hu2) v hv)
    simp [outerLoop, h1, h2, List.replicate_succ]

theorem newDivAux_all_false :
    ∀ (rest : List ℚ) (prev : ℚ) (flags : List Bool),
      (∀ f ∈ flags, f = false) → newDivAux prev rest flags = rest := by
  intro rest
  induction rest with
  | nil =>
    intro prev flags _
    cases flags <;> rfl
  | cons b bs IH =>
    intro prev flags hf
    cases flags with
    | nil =>
      simp [newDivAux, IH b [] (fun f hf2 => absurd hf2 (List.not_mem_nil f))]
    | cons f fs =>
      have hf0 : f = false := hf f (List.mem_cons_self f fs)
      subst hf0
      simp [newDivAux, IH b fs (fun f2 hf2 => hf f2 (List.mem_cons_of_mem false hf2))]

theorem newDiv_all_false (div : List ℚ) (flags : List Bool)
    (hf : ∀ f ∈ flags, f = false) : newDiv div flags = div := by
  cases div with
  | nil => rfl
  | cons a rest => simp [newDiv, newDivAux_all_false rest a flags hf]

/-- Claim C8 as amended: refinement flags are not propagated between passes —
each pass allocates fresh all-false flags, and a cell is skipped only when
both of its axis flags were already set earlier in the same pass. In
particular a pass over a grid whose every cell is within tolerance still
re-samples every single cell (and leaves the breakpoints unchanged, which is
what terminates the recursion); re-sampling is consistent because the jitter
is a deterministic hash of the sampled midpoint. -/
theorem subdivision_pass_resamples_fine_cells (S : PSurf ℚ) (tol : ℚ)
    (udiv vdiv : List ℚ)
    (hfine : ∀ u ∈ windows udiv, ∀ v ∈ windows vdiv, cellFar S tol u v = false) :
    pass S tol udiv vdiv =
      (udiv, vdiv,
        (windows udiv).flatMap fun u => (windows vdiv).map fun v => ((u, v) : Cell)) := by
  unfold pass
  rw [outerLoop_all_fine S tol (windows vdiv) (windows udiv)
    (List.replicate (windows vdiv).length false) rfl hfine]
  dsimp only
  rw [newDiv_all_false udiv _ (fun f hf => List.eq_of_mem_replicate hf),
    newDiv_all_false vdiv _ (fun f hf => List.eq_of_mem_replicate hf)]

/-- Witness for C8's amended claim: one pass over the (everywhere-fine) plane
samples its single cell and leaves the grid unchanged. -/
theorem subdivision_pass_resamples_fine_cells_witness :
    pass planeSurf 1 [0, 1] [0, 1]
      = ([0, 1], [0, 1], [(((0 : ℚ), (1 : ℚ)), ((0 : ℚ), (1 : ℚ)))]) :=
  subdivision_pass_resamples_fine_cells planeSurf 1 [0, 1] [0, 1]
    (by with_unfolding_all decide)

end Truck
